import Mathlib

/-!
Verification of the page-scanning and frontmatter-parsing logic of
scripts/verify_e2e_data.py.  Python strings are modelled as lists of
characters (`Str`), Python dicts as association lists with the Python
insert-overwrite semantics, and the data directory as an inductive tree
of named entries.  The one fallible filesystem operation (reading an
entry named index.md that is in fact a directory raises in Python) is
modelled with `Except Unit`.
-/

namespace MddbVerify

/-- Python strings are modelled as sequences of characters. -/
abbrev Str := List Char

/-- The apostrophe character, written via its code point. -/
def sq : Char := Char.ofNat 39

/-- Whitespace characters stripped by Python str.strip (ASCII range). -/
def isPySpace (c : Char) : Bool :=
  decide (c = ' ' ∨ c = Char.ofNat 9 ∨ c = Char.ofNat 10 ∨ c = Char.ofNat 13 ∨
    c = Char.ofNat 11 ∨ c = Char.ofNat 12)

/-- Python str.strip: remove leading and trailing whitespace. -/
def pyStrip (s : Str) : Str :=
  ((s.dropWhile isPySpace).reverse.dropWhile isPySpace).reverse

/-- Python slice s[a:b] (with clamping, as in Python). -/
def pySlice (s : Str) (a b : Nat) : Str :=
  (s.take b).drop a

/-- Python str.split with a one-character separator: "".split gives [""],
and every separator occurrence produces a boundary. -/
def pySplitOn (c : Char) : Str → List Str
  | [] => [[]]
  | h :: t =>
    if h = c then [] :: pySplitOn c t
    else
      match pySplitOn c t with
      | [] => [[h]]
      | l :: ls => (h :: l) :: ls

/-- Python s.split(sep, 1) for a one-character separator known to occur:
the pieces before and after the first occurrence. -/
def splitFirst (c : Char) : Str → Str × Str
  | [] => ([], [])
  | h :: t =>
    if h = c then ([], t)
    else
      let r := splitFirst c t
      (h :: r.1, r.2)

/-- Index of the first occurrence of `needle` in `s`, if any. -/
def findSub (needle : Str) : Str → Option Nat
  | [] => if needle.isPrefixOf [] then some 0 else none
  | c :: t =>
    if needle.isPrefixOf (c :: t) then some 0
    else (findSub needle t).map (fun n => n + 1)

/-- Python s.find(needle, start): the least index at or past `start` where
`needle` occurs, as an `Option` instead of the sentinel -1. -/
def findFrom (s needle : Str) (start : Nat) : Option Nat :=
  (findSub needle (s.drop start)).map (fun n => n + start)

/-- Python substring test (`needle in s`). -/
def containsSub (s needle : Str) : Bool :=
  (findSub needle s).isSome

/-- Python dict insertion: overwrite the value at an existing key in place,
otherwise append the new binding at the end. -/
def dictInsert (d : List (Str × Str)) (k v : Str) : List (Str × Str) :=
  if (d.map Prod.fst).contains k then
    d.map (fun p => if p.1 = k then (p.1, v) else p)
  else d ++ [(k, v)]

/-- Python dict.get with a default. -/
def dictGet (d : List (Str × Str)) (k dflt : Str) : Str :=
  match d.find? (fun p => decide (p.1 = k)) with
  | some p => p.2
  | none => dflt

/-- The three-character frontmatter delimiter. -/
def fmDelim : Str := ("---").data

/-- The frontmatter terminator: newline, delimiter, newline. -/
def fmEnd : Str := ("\n---\n").data

/-- Shallow embedding of parse_frontmatter from verify_e2e_data.py:
if the content starts with "---" and "\n---\n" occurs at or past index 3,
the region between index 4 and the terminator is split into lines, each
line holding a colon is split at its first colon into a stripped key and
value inserted into the mapping, and the body is everything 5 characters
past the terminator position; otherwise the mapping is empty and the body
is the whole content.  The function is total: no input raises. -/
def parse_frontmatter (content : Str) : List (Str × Str) × Str :=
  if fmDelim.isPrefixOf content then
    match findFrom content fmEnd 3 with
    | none => ([], content)
    | some e =>
      let fm := (pySplitOn '\n' (pySlice content 4 e)).foldl
        (fun d line =>
          if ':' ∈ line then
            let kv := splitFirst ':' line
            dictInsert d (pyStrip kv.1) (pyStrip kv.2)
          else d) []
      (fm, content.drop (e + 5))
  else ([], content)

/-- Model of a directory entry: a regular file with its text content, or a
directory with its listing (in directory-listing order). -/
inductive FSEntry where
  | file (name : Str) (content : Str)
  | dir (name : Str) (entries : List FSEntry)

/-- Name of an entry. -/
def FSEntry.name : FSEntry → Str
  | .file n _ => n
  | .dir n _ => n

/-- Python name.startswith of a dot: the hidden-directory filter. -/
def hiddenName (nm : Str) : Bool :=
  (".").data.isPrefixOf nm

/-- The file name looked up inside every node directory. -/
def indexMdName : Str := ("index.md").data

/-- The header key the scanner reads. -/
def titleKey : Str := ("title").data

/-- First entry with the given name, as Path exists would find it. -/
def findEntry (nm : Str) (entries : List FSEntry) : Option FSEntry :=
  entries.find? (fun e => decide (e.name = nm))

/-- One discovered page: the path of its index.md (workspace and node
directory names) with the extracted title and stripped body, mirroring the
(path, title, content) tuples built by scan_pages. -/
structure Page where
  ws : Str
  node : Str
  title : Str
  body : Str
deriving DecidableEq

/-- Scan of one workspace child: files and hidden directories are skipped,
a node directory without an entry named index.md yields no page, a node
whose index.md entry is itself a directory makes Python read_text raise
(modelled as `Except.error`), and otherwise the index.md content is parsed
into a page. -/
def nodePage (wsName : Str) (e : FSEntry) : Except Unit (Option Page) :=
  match e with
  | .file _ _ => .ok none
  | .dir nm entries =>
    if hiddenName nm then .ok none
    else
      match findEntry indexMdName entries with
      | none => .ok none
      | some (.dir _ _) => .error ()
      | some (.file _ c) =>
        let r := parse_frontmatter c
        .ok (some ⟨wsName, nm, dictGet r.1 titleKey [], pyStrip r.2⟩)

/-- Pages of one workspace directory, in listing order. -/
def scanNodes (wsName : Str) : List FSEntry → Except Unit (List Page)
  | [] => .ok []
  | e :: rest =>
    match nodePage wsName e with
    | .error u => .error u
    | .ok none => scanNodes wsName rest
    | .ok (some p) =>
      match scanNodes wsName rest with
      | .error u => .error u
      | .ok ps => .ok (p :: ps)

/-- Shallow embedding of scan_pages: walk the root listing, skip files and
hidden workspace directories, and concatenate the pages of each workspace. -/
def scan_pages : List FSEntry → Except Unit (List Page)
  | [] => .ok []
  | e :: rest =>
    match e with
    | .file _ _ => scan_pages rest
    | .dir nm entries =>
      if hiddenName nm then scan_pages rest
      else
        match scanNodes nm entries with
        | .error u => .error u
        | .ok ps =>
          match scan_pages rest with
          | .error u => .error u
          | .ok qs => .ok (ps ++ qs)

/-- Expected title of the rename-on-navigation check. -/
def titleRenamed : Str := ("RENAMED PAGE TITLE").data

/-- Stale title that must no longer occur. -/
def titleOld : Str := ("Page To Rename").data

/-- Expected title of the rapid-rename check. -/
def titleFinal : Str := ("FINAL RENAME").data

/-- Substring expected in some body by the content-flush check. -/
def modMarker : Str := ("MODIFIED CONTENT").data

/-- Expected title of the combined title+content check. -/
def titleNew : Str := ("NEW TITLE").data

/-- Expected title of the autosave check. -/
def titleUpdated : Str := ("Updated Title").data

/-- Decimal rendering of a page count, as Python str() interpolates it. -/
def natStr (n : Nat) : Str := (toString n).data

/-- Error message of check 1 (rename on navigation). -/
def msgRenamed : Str :=
  ("No ").data ++ [sq] ++ titleRenamed ++ [sq] ++
    (" pages - flush on navigation broken").data

/-- Error message of check 2 (stale title), carrying the count found. -/
def msgOld (n : Nat) : Str :=
  ("Found ").data ++ natStr n ++ (" ").data ++ [sq] ++ titleOld ++ [sq] ++
    (" pages - rename was lost").data

/-- Error message of check 3 (rapid rename). -/
def msgFinal : Str :=
  ("No ").data ++ [sq] ++ titleFinal ++ [sq] ++ (" pages - rapid rename broken").data

/-- Error message of check 4 (content flush). -/
def msgModified : Str :=
  ("No pages with ").data ++ [sq] ++ modMarker ++ [sq] ++ (" - content flush broken").data

/-- Error message of check 5 (combined flush). -/
def msgNew : Str :=
  ("No ").data ++ [sq] ++ titleNew ++ [sq] ++ (" pages - combined flush broken").data

/-- Error message of check 6 (autosave). -/
def msgUpdated : Str :=
  ("No ").data ++ [sq] ++ titleUpdated ++ [sq] ++ (" pages - autosave broken").data

/-- The error accumulation of main: the six filters are computed and each
failed check appends exactly one message, in source order, with no
short-circuiting. -/
def checkErrors (pages : List Page) : List Str :=
  let renamed := pages.filter (fun p => decide (p.title = titleRenamed))
  let old_title := pages.filter (fun p => decide (p.title = titleOld))
  let final_rename := pages.filter (fun p => decide (p.title = titleFinal))
  let modified_content := pages.filter (fun p => containsSub p.body modMarker)
  let new_title := pages.filter (fun p => decide (p.title = titleNew))
  let updated_title := pages.filter (fun p => decide (p.title = titleUpdated))
  (if renamed.isEmpty then [msgRenamed] else []) ++
  (if old_title.isEmpty then [] else [msgOld old_title.length]) ++
  (if final_rename.isEmpty then [msgFinal] else []) ++
  (if modified_content.isEmpty then [msgModified] else []) ++
  (if new_title.isEmpty then [msgNew] else []) ++
  (if updated_title.isEmpty then [msgUpdated] else [])

/-- Console line printed for one accumulated error. -/
def errLine (m : Str) : Str := ("ERROR: ").data ++ m

/-- Opening of the scan summary line. -/
def sumHead : Str := ("Scanned ").data

/-- Closing of the scan summary line (DATA_DIR prints as data). -/
def sumTail : Str := (" pages in data").data

/-- The scan summary line for a page count. -/
def summaryLine (n : Nat) : Str := sumHead ++ natStr n ++ sumTail

/-- Final line printed when every check passes. -/
def successLine : Str := ("All e2e data verifications passed").data

/-- Line printed when the data directory is missing. -/
def missingRootLine : Str := ("ERROR: data does not exist").data

/-- Line printed when the scan finds no pages. -/
def noPagesLine : Str := ("ERROR: No pages found").data

/-- Reporting phase of main, reached with a non-empty page list: print the
summary, then every error line and exit 1, or the success line and exit 0. -/
def report (pages : List Page) : Nat × List Str :=
  let errors := checkErrors pages
  if errors.isEmpty then (0, [summaryLine pages.length, successLine])
  else (1, summaryLine pages.length :: errors.map errLine)

/-- Shallow embedding of main: the root is `none` when the data directory
does not exist; the result is the exit status together with the list of
printed lines, and `Except.error` when the scan raises. -/
def pyMain (root : Option (List FSEntry)) : Except Unit (Nat × List Str) :=
  match root with
  | none => .ok (1, [missingRootLine])
  | some entries =>
    match scan_pages entries with
    | .error u => .error u
    | .ok pages =>
      if pages.isEmpty then .ok (1, [noPagesLine])
      else .ok (report pages)

/-- Key-value reading of one header line, following the spec words: a line
containing a colon is split on the first colon into key and value, both
trimmed of surrounding whitespace; other lines contribute nothing. -/
def lineKV (line : Str) : Option (Str × Str) :=
  if ':' ∈ line then
    some (pyStrip (splitFirst ':' line).1, pyStrip (splitFirst ':' line).2)
  else none

/-- Mapping described by the spec words for the header region: the value of
a key is the one carried by the last line bearing that key (last occurrence
of a duplicate key wins), or nothing when no line bears it. -/
def specLastValue (lines : List Str) (k : Str) : Option Str :=
  ((lines.filterMap lineKV).reverse.find? (fun p => decide (p.1 = k))).map
    (fun p => p.2)

/-- Page contributed by one workspace child according to the spec words:
only a non-hidden node directory holding a file named exactly index.md
contributes, with title read from the header mapping (empty default) and
the body stripped. -/
def nodePageSpec (wsName : Str) (e : FSEntry) : Option Page :=
  match e with
  | .file _ _ => none
  | .dir nm entries =>
    if hiddenName nm then none
    else
      match findEntry indexMdName entries with
      | some (.file _ c) =>
        some ⟨wsName, nm,
          dictGet (parse_frontmatter c).1 titleKey [],
          pyStrip (parse_frontmatter c).2⟩
      | _ => none

/-- Pages of one root child according to the spec words: nothing for files
and hidden workspace directories, else the node pages in order. -/
def wsPagesSpec (e : FSEntry) : List Page :=
  match e with
  | .file _ _ => []
  | .dir nm entries =>
    if hiddenName nm then []
    else entries.filterMap (nodePageSpec nm)

/-- The page set described by the spec: exactly the index.md files lying
directly inside non-hidden node directories of non-hidden workspaces. -/
def specPages (root : List FSEntry) : List Page :=
  root.flatMap wsPagesSpec

/-- Check 1: at least one page titled RENAMED PAGE TITLE. -/
def chk1 (pages : List Page) : Bool :=
  pages.any (fun p => decide (p.title = titleRenamed))

/-- Check 2: zero pages titled Page To Rename. -/
def chk2 (pages : List Page) : Bool :=
  !(pages.any (fun p => decide (p.title = titleOld)))

/-- Check 3: at least one page titled FINAL RENAME. -/
def chk3 (pages : List Page) : Bool :=
  pages.any (fun p => decide (p.title = titleFinal))

/-- Check 4: at least one body containing MODIFIED CONTENT. -/
def chk4 (pages : List Page) : Bool :=
  pages.any (fun p => containsSub p.body modMarker)

/-- Check 5: at least one page titled NEW TITLE. -/
def chk5 (pages : List Page) : Bool :=
  pages.any (fun p => decide (p.title = titleNew))

/-- Check 6: at least one page titled Updated Title. -/
def chk6 (pages : List Page) : Bool :=
  pages.any (fun p => decide (p.title = titleUpdated))

/-- Example content of the spec: a one-key header followed by a body. -/
def c1ex : Str := ("---\ntitle: Foo\n---\nBody text").data

/-- Concrete tree for the scan witness: one workspace with one node. -/
def w3root : List FSEntry :=
  [.dir (("w")).data [.dir (("n")).data
    [.file indexMdName (("---\ntitle: T\n---\nb")).data]]]

/-- Pages the scan finds in the witness tree. -/
def w3pages : List Page :=
  [⟨(("w")).data, (("n")).data, (("T")).data, (("b")).data⟩]

/-- The failure condition named by the claim: missing root, or an empty
scan, or a scan on which some of the six checks fails. -/
def failCond (root : Option (List FSEntry)) : Prop :=
  root = none ∨ ∃ entries, root = some entries ∧
    (scan_pages entries = .ok [] ∨ ∃ ps, scan_pages entries = .ok ps ∧
      ¬(chk1 ps = true ∧ chk2 ps = true ∧ chk3 ps = true ∧ chk4 ps = true ∧
        chk5 ps = true ∧ chk6 ps = true))

/-- Root tree of the spec scenario: workspace w1 with nodes n1 and n2. -/
def c8root : List FSEntry :=
  [.dir (("w1")).data
    [.dir (("n1")).data
      [.file indexMdName (("---\ntitle: RENAMED PAGE TITLE\n---\nhello")).data],
     .dir (("n2")).data
      [.file indexMdName (("---\ntitle: Page To Rename\n---\nx")).data]]]

/-- Console lines the run prints on the spec scenario. -/
def c8out : List Str :=
  [summaryLine 2, errLine (msgOld 1), errLine msgFinal, errLine msgModified,
   errLine msgNew, errLine msgUpdated]

/-- Two concrete pages for the permutation witness. -/
def wpgA : Page := ⟨[], [], titleRenamed, []⟩

/-- Second concrete page for the permutation witness. -/
def wpgB : Page := ⟨[], [], titleOld, []⟩

theorem filter_isEmpty_eq_not_any {α : Type} (f : α → Bool) (l : List α) :
    (l.filter f).isEmpty = !(l.any f) := by
  induction l with
  | nil => rfl
  | cons a t ih =>
    by_cases h : f a = true
    · simp [List.filter_cons, h]
    · simp only [Bool.not_eq_true] at h
      simp [List.filter_cons, h, ih]

theorem dictGet_dictInsert (d : List (Str × Str)) (k v k2 dflt : Str) :
    dictGet (dictInsert d k v) k2 dflt = if k2 = k then v else dictGet d k2 dflt := by
  unfold dictInsert dictGet
  by_cases hc : (d.map Prod.fst).contains k = true
  · simp only [hc, if_true]
    rw [List.find?_map]
    have hcomp : ((fun p : Str × Str => decide (p.1 = k2)) ∘
        (fun p : Str × Str => if p.1 = k then (p.1, v) else p)) =
        fun p : Str × Str => decide (p.1 = k2) := by
      funext p
      by_cases hpk : p.1 = k <;> simp [hpk]
    rw [hcomp]
    by_cases hk : k2 = k
    · subst hk
      cases hfind : List.find? (fun p : Str × Str => decide (p.1 = k2)) d with
      | none =>
        rw [List.find?_eq_none] at hfind
        rw [List.contains_eq_any_beq, List.any_eq_true] at hc
        obtain ⟨x, hx, hbeq⟩ := hc
        obtain ⟨p, hp, hfst⟩ := List.mem_map.mp hx
        have : k2 = x := by simpa using hbeq
        exact absurd (by simp [hfst, this]) (hfind p hp)
      | some p0 =>
        have hp0 : p0.1 = k2 := by simpa using List.find?_some hfind
        simp [hfind, hp0]
    · cases hfind : List.find? (fun p : Str × Str => decide (p.1 = k2)) d with
      | none => simp [hfind, hk]
      | some p0 =>
        have hp0 : p0.1 = k2 := by simpa using List.find?_some hfind
        have hne : ¬(p0.1 = k) := by rw [hp0]; exact hk
        simp [hfind, hk, hne]
  · rw [if_neg hc]
    rw [List.find?_append]
    by_cases hk : k2 = k
    · subst hk
      have hnone : List.find? (fun p : Str × Str => decide (p.1 = k2)) d = none := by
        rw [List.find?_eq_none]
        intro p hp
        simp only [decide_eq_true_eq]
        intro hpk
        apply hc
        rw [List.contains_eq_any_beq, List.any_eq_true]
        exact ⟨p.1, List.mem_map.mpr ⟨p, hp, rfl⟩, by simp [hpk]⟩
      simp [hnone, List.find?]
    · cases hfind : List.find? (fun p : Str × Str => decide (p.1 = k2)) d with
      | none => simp [hfind, List.find?, hk, Ne.symm hk]
      | some p0 => simp [hfind, hk]

theorem dictGet_foldl_insert (kvs : List (Str × Str)) (d : List (Str × Str))
    (k dflt : Str) :
    dictGet (kvs.foldl (fun d p => dictInsert d p.1 p.2) d) k dflt =
      match kvs.reverse.find? (fun p => decide (p.1 = k)) with
      | some p => p.2
      | none => dictGet d k dflt := by
  induction kvs generalizing d with
  | nil => rfl
  | cons a t ih =>
    rw [List.foldl_cons, ih, List.reverse_cons, List.find?_append]
    cases hfind : List.find? (fun p : Str × Str => decide (p.1 = k)) t.reverse with
    | some p0 => simp
    | none =>
      simp only [Option.or, dictGet_dictInsert]
      by_cases hk : k = a.1
      · simp [List.find?, hk]
      · rw [if_neg hk]
        simp [List.find?, Ne.symm hk]

theorem foldl_lines_eq (lines : List Str) (d : List (Str × Str)) :
    lines.foldl (fun d line =>
        if ':' ∈ line then
          let kv := splitFirst ':' line
          dictInsert d (pyStrip kv.1) (pyStrip kv.2)
        else d) d =
      (lines.filterMap lineKV).foldl (fun d p => dictInsert d p.1 p.2) d := by
  induction lines generalizing d with
  | nil => rfl
  | cons l t ih =>
    by_cases h : ':' ∈ l
    · simp only [List.foldl_cons, List.filterMap_cons, lineKV, if_pos h, ih]
    · simp only [List.foldl_cons, List.filterMap_cons, lineKV, if_neg h, ih]

theorem dictGet_header_fold (lines : List Str) (k : Str) :
    dictGet (lines.foldl (fun d line =>
        if ':' ∈ line then
          let kv := splitFirst ':' line
          dictInsert d (pyStrip kv.1) (pyStrip kv.2)
        else d) []) k [] =
      (specLastValue lines k).getD [] := by
  rw [foldl_lines_eq, dictGet_foldl_insert]
  unfold specLastValue
  cases hfind : (lines.filterMap lineKV).reverse.find? (fun p => decide (p.1 = k)) with
  | none => rfl
  | some p => rfl

/-- Claim C1.  When the content starts with the delimiter and the terminator
occurs at some position at or past 3, the body is everything 5 characters
past the terminator position, and looking up any key in the produced
mapping returns the trimmed value after the first colon of the last
header-region line bearing that key (last duplicate wins); concretely, the
spec example parses to the mapping title ↦ Foo with body Body text, and a
line with several colons splits at the first one only. -/
theorem spec_C1 (content : Str) (e : Nat)
    (hp : fmDelim.isPrefixOf content = true)
    (hf : findFrom content fmEnd 3 = some e) :
    (parse_frontmatter content).2 = content.drop (e + 5) ∧
    (∀ k, dictGet (parse_frontmatter content).1 k [] =
      (specLastValue (pySplitOn '\n' (pySlice content 4 e)) k).getD []) ∧
    parse_frontmatter c1ex = ([(("title").data, ("Foo").data)], ("Body text").data) ∧
    lineKV (("title: A: B").data) = some (("title").data, ("A: B").data) := by
  have hparse : parse_frontmatter content =
      ((pySplitOn '\n' (pySlice content 4 e)).foldl (fun d line =>
        if ':' ∈ line then
          let kv := splitFirst ':' line
          dictInsert d (pyStrip kv.1) (pyStrip kv.2)
        else d) [], content.drop (e + 5)) := by
    unfold parse_frontmatter
    rw [if_pos hp, hf]
  refine ⟨by rw [hparse], ?_, by decide, by decide⟩
  intro k
  rw [hparse]
  exact dictGet_header_fold (pySplitOn '\n' (pySlice content 4 e)) k

theorem spec_C1_witness :
    (parse_frontmatter c1ex).2 = c1ex.drop (14 + 5) ∧
    dictGet (parse_frontmatter c1ex).1 (("title").data) [] =
      (specLastValue (pySplitOn '\n' (pySlice c1ex 4 14)) (("title").data)).getD [] :=
  ⟨(spec_C1 c1ex 14 (by decide) (by decide)).1,
   (spec_C1 c1ex 14 (by decide) (by decide)).2.1 (("title").data)⟩

theorem parse_no_header (s : Str)
    (h : fmDelim.isPrefixOf s = false ∨ findFrom s fmEnd 3 = none) :
    parse_frontmatter s = ([], s) := by
  unfold parse_frontmatter
  rcases h with h | h
  · simp [h]
  · by_cases hp : fmDelim.isPrefixOf s = true
    · rw [if_pos hp, h]
    · rw [if_neg hp]

/-- Claim C2.  Content that does not start with the delimiter, or in which the
terminator never occurs at or past position 3, parses to the empty mapping
with the whole content unchanged as body; the embedded parser is a total
function, matching the no-error contract. -/
theorem spec_C2 (s : Str)
    (h : fmDelim.isPrefixOf s = false ∨ findFrom s fmEnd 3 = none) :
    parse_frontmatter s = ([], s) :=
  parse_no_header s h

theorem spec_C2_witness : parse_frontmatter (("no header here").data) =
    ([], ("no header here").data) :=
  spec_C2 (("no header here").data) (Or.inl (by decide))

/-- Claim C9.  The body returned by the parser is always a suffix of the input:
the whole input when no header is recognised, and otherwise the substring
starting 5 characters past the found terminator position. -/
theorem spec_C9 (s : Str) :
    (parse_frontmatter s).2 <:+ s ∧
    ((parse_frontmatter s).2 = s ∨
      ∃ e, findFrom s fmEnd 3 = some e ∧ (parse_frontmatter s).2 = s.drop (e + 5)) := by
  by_cases hp : fmDelim.isPrefixOf s = true
  · cases hf : findFrom s fmEnd 3 with
    | none =>
      have hps : parse_frontmatter s = ([], s) := parse_no_header s (Or.inr hf)
      rw [hps]
      exact ⟨List.suffix_refl s, Or.inl rfl⟩
    | some e =>
      have hps : (parse_frontmatter s).2 = s.drop (e + 5) := by
        unfold parse_frontmatter
        rw [if_pos hp, hf]
      rw [hps]
      exact ⟨List.drop_suffix _ _, Or.inr ⟨e, rfl, rfl⟩⟩
  · have hps : parse_frontmatter s = ([], s) := by
      unfold parse_frontmatter
      rw [if_neg hp]
    rw [hps]
    exact ⟨List.suffix_refl s, Or.inl rfl⟩

theorem spec_C9_witness :
    (parse_frontmatter c1ex).2 <:+ c1ex :=
  (spec_C9 c1ex).1

theorem scanNodes_ok (ws : Str) (es : List FSEntry) (qs : List Page)
    (h : scanNodes ws es = .ok qs) : qs = es.filterMap (nodePageSpec ws) := by
  induction es generalizing qs with
  | nil =>
    simp only [scanNodes] at h
    cases h
    rfl
  | cons e rest ih =>
    cases e with
    | file n c =>
      simp only [scanNodes, nodePage] at h
      rw [List.filterMap_cons]
      simp only [nodePageSpec]
      exact ih qs h
    | dir nm entries =>
      by_cases hh : hiddenName nm = true
      · simp only [scanNodes, nodePage, if_pos hh] at h
        rw [List.filterMap_cons]
        simp only [nodePageSpec, if_pos hh]
        exact ih qs h
      · cases hfe : findEntry indexMdName entries with
        | none =>
          simp only [scanNodes, nodePage, if_neg hh, hfe] at h
          rw [List.filterMap_cons]
          simp only [nodePageSpec, if_neg hh, hfe]
          exact ih qs h
        | some found =>
          cases found with
          | dir n2 es2 =>
            simp only [scanNodes, nodePage, if_neg hh, hfe] at h
            cases h
          | file n2 c2 =>
            simp only [scanNodes, nodePage, if_neg hh, hfe] at h
            cases hrest : scanNodes ws rest with
            | error u =>
              rw [hrest] at h
              cases h
            | ok ps =>
              rw [hrest] at h
              cases h
              rw [List.filterMap_cons]
              simp only [nodePageSpec, if_neg hh, hfe]
              rw [ih ps hrest]

theorem scan_pages_ok (root : List FSEntry) (ps : List Page)
    (h : scan_pages root = .ok ps) : ps = specPages root := by
  induction root generalizing ps with
  | nil =>
    simp only [scan_pages] at h
    cases h
    rfl
  | cons e rest ih =>
    cases e with
    | file n c =>
      simp only [scan_pages] at h
      simp only [specPages, List.flatMap_cons, wsPagesSpec, List.nil_append]
      exact ih ps h
    | dir nm entries =>
      by_cases hh : hiddenName nm = true
      · simp only [scan_pages, if_pos hh] at h
        simp only [specPages, List.flatMap_cons, wsPagesSpec, if_pos hh, List.nil_append]
        exact ih ps h
      · simp only [scan_pages, if_neg hh] at h
        cases hws : scanNodes nm entries with
        | error u =>
          rw [hws] at h
          cases h
        | ok qs =>
          rw [hws] at h
          cases hrest : scan_pages rest with
          | error u =>
            rw [hrest] at h
            cases h
          | ok rs =>
            rw [hrest] at h
            cases h
            simp only [specPages, List.flatMap_cons, wsPagesSpec, if_neg hh]
            rw [scanNodes_ok nm entries qs hws, ih rs hrest]
            rfl

/-- Claim C3.  Whenever the scan completes (no read of index.md raises), its page
list is exactly the one described by the spec: the index.md files lying
directly inside non-hidden node directories of non-hidden workspace
directories, each parsed into a page whose title is the title value of the header
mapping (empty default) and whose body is the parsed body stripped of
surrounding whitespace; files at either level and nodes without index.md
contribute nothing. -/
theorem spec_C3 (root : List FSEntry) (ps : List Page)
    (h : scan_pages root = .ok ps) : ps = specPages root :=
  scan_pages_ok root ps h

theorem spec_C3_witness : w3pages = specPages w3root :=
  spec_C3 w3root w3pages (by rfl)

theorem if_not_bool {α : Type} (b : Bool) (x y : α) :
    (if (!b) = true then x else y) = if b = true then y else x := by
  cases b <;> simp

theorem checkErrors_eq (ps : List Page) :
    checkErrors ps =
      (if chk1 ps then [] else [msgRenamed]) ++
      (if chk2 ps then [] else
        [msgOld (ps.countP (fun p => decide (p.title = titleOld)))]) ++
      (if chk3 ps then [] else [msgFinal]) ++
      (if chk4 ps then [] else [msgModified]) ++
      (if chk5 ps then [] else [msgNew]) ++
      (if chk6 ps then [] else [msgUpdated]) := by
  unfold checkErrors chk1 chk2 chk3 chk4 chk5 chk6
  rw [List.countP_eq_length_filter]
  simp only [filter_isEmpty_eq_not_any, if_not_bool, Bool.not_not]

theorem checkErrors_eq_nil_iff (ps : List Page) :
    checkErrors ps = [] ↔
      (chk1 ps = true ∧ chk2 ps = true ∧ chk3 ps = true ∧ chk4 ps = true ∧
       chk5 ps = true ∧ chk6 ps = true) := by
  rw [checkErrors_eq]
  cases h1 : chk1 ps <;> cases h2 : chk2 ps <;> cases h3 : chk3 ps <;>
    cases h4 : chk4 ps <;> cases h5 : chk5 ps <;> cases h6 : chk6 ps <;> simp

theorem perm_any {α : Type} (f : α → Bool) {l₁ l₂ : List α} (h : l₁.Perm l₂) :
    l₁.any f = l₂.any f := by
  cases ha : l₁.any f with
  | true =>
    obtain ⟨x, hx, hfx⟩ := List.any_eq_true.mp ha
    exact (List.any_eq_true.mpr ⟨x, h.mem_iff.mp hx, hfx⟩).symm
  | false =>
    have := List.any_eq_false.mp ha
    exact (List.any_eq_false.mpr (fun x hx => this x (h.mem_iff.mpr hx))).symm

theorem perm_isEmpty {α : Type} {l₁ l₂ : List α} (h : l₁.Perm l₂) :
    l₁.isEmpty = l₂.isEmpty := by
  have hlen := h.length_eq
  cases l₁ <;> cases l₂ <;> simp_all

theorem checkErrors_perm {ps qs : List Page} (h : ps.Perm qs) :
    checkErrors ps = checkErrors qs := by
  rw [checkErrors_eq ps, checkErrors_eq qs,
    show chk1 ps = chk1 qs from perm_any _ h,
    show chk2 ps = chk2 qs from congrArg Bool.not (perm_any _ h),
    show chk3 ps = chk3 qs from perm_any _ h,
    show chk4 ps = chk4 qs from perm_any _ h,
    show chk5 ps = chk5 qs from perm_any _ h,
    show chk6 ps = chk6 qs from perm_any _ h,
    h.countP_eq (fun p => decide (p.title = titleOld))]

/-- Claim C5.  On any non-empty page list, the accumulated error list is exactly
one message per failed check, in source order with the stale-title count
interpolated, with no short-circuiting; the reporting phase exits 0
precisely when all six checks pass. -/
theorem spec_C5 (ps : List Page) (_hne : ps ≠ []) :
    checkErrors ps =
      (if chk1 ps then [] else [msgRenamed]) ++
      (if chk2 ps then [] else
        [msgOld (ps.countP (fun p => decide (p.title = titleOld)))]) ++
      (if chk3 ps then [] else [msgFinal]) ++
      (if chk4 ps then [] else [msgModified]) ++
      (if chk5 ps then [] else [msgNew]) ++
      (if chk6 ps then [] else [msgUpdated]) ∧
    (checkErrors ps = [] ↔
      (chk1 ps = true ∧ chk2 ps = true ∧ chk3 ps = true ∧ chk4 ps = true ∧
       chk5 ps = true ∧ chk6 ps = true)) ∧
    ((report ps).1 = 0 ↔
      (chk1 ps = true ∧ chk2 ps = true ∧ chk3 ps = true ∧ chk4 ps = true ∧
       chk5 ps = true ∧ chk6 ps = true)) := by
  refine ⟨checkErrors_eq ps, checkErrors_eq_nil_iff ps, ?_⟩
  unfold report
  rw [← checkErrors_eq_nil_iff ps]
  cases hce : (checkErrors ps).isEmpty with
  | true =>
    have hnil : checkErrors ps = [] := List.isEmpty_iff.mp hce
    simp [hnil]
  | false =>
    have hnnil : checkErrors ps ≠ [] := by
      intro hnil
      rw [hnil] at hce
      cases hce
    simp [hnnil]

theorem spec_C5_witness :
    checkErrors w3pages =
      (if chk1 w3pages then [] else [msgRenamed]) ++
      (if chk2 w3pages then [] else
        [msgOld (w3pages.countP (fun p => decide (p.title = titleOld)))]) ++
      (if chk3 w3pages then [] else [msgFinal]) ++
      (if chk4 w3pages then [] else [msgModified]) ++
      (if chk5 w3pages then [] else [msgNew]) ++
      (if chk6 w3pages then [] else [msgUpdated]) ∧
    (checkErrors w3pages = [] ↔
      (chk1 w3pages = true ∧ chk2 w3pages = true ∧ chk3 w3pages = true ∧
       chk4 w3pages = true ∧ chk5 w3pages = true ∧ chk6 w3pages = true)) ∧
    ((report w3pages).1 = 0 ↔
      (chk1 w3pages = true ∧ chk2 w3pages = true ∧ chk3 w3pages = true ∧
       chk4 w3pages = true ∧ chk5 w3pages = true ∧ chk6 w3pages = true)) :=
  spec_C5 w3pages (by decide)

/-- Claim C4.  Every run that terminates normally (the scan raises on no read)
exits non-zero exactly when the root is absent, the scan finds no pages,
or at least one of the six checks fails. -/
theorem spec_C4 (root : Option (List FSEntry)) (r : Nat × List Str)
    (h : pyMain root = .ok r) : r.1 ≠ 0 ↔ failCond root := by
  unfold failCond
  cases root with
  | none =>
    simp only [pyMain] at h
    cases h
    simp
  | some entries =>
    simp only [pyMain] at h
    cases hscan : scan_pages entries with
    | error u =>
      rw [hscan] at h
      cases h
    | ok pages =>
      rw [hscan] at h
      dsimp only at h
      by_cases hemp : pages.isEmpty = true
      · rw [if_pos hemp] at h
        cases h
        have hnil : pages = [] := List.isEmpty_iff.mp hemp
        subst hnil
        simp only [ne_eq, one_ne_zero, not_false_eq_true, true_iff]
        exact Or.inr ⟨entries, rfl, Or.inl hscan⟩
      · rw [if_neg hemp] at h
        cases h
        unfold report
        cases hce : (checkErrors pages).isEmpty with
        | true =>
          have hnil : checkErrors pages = [] := List.isEmpty_iff.mp hce
          have hall := (checkErrors_eq_nil_iff pages).mp hnil
          rw [if_pos hce]
          constructor
          · intro habs
            exact absurd rfl habs
          · rintro (hn | ⟨entries2, he2, hrest⟩)
            · cases hn
            · cases he2
              rcases hrest with hs0 | ⟨ps2, hs2, hnot⟩
              · rw [hscan] at hs0
                cases hs0
                exact absurd rfl hemp
              · rw [hscan] at hs2
                cases hs2
                exact absurd hall hnot
        | false =>
          have hnnil : checkErrors pages ≠ [] := by
            intro hnil
            rw [hnil] at hce
            cases hce
          have hnot : ¬(chk1 pages = true ∧ chk2 pages = true ∧ chk3 pages = true ∧
              chk4 pages = true ∧ chk5 pages = true ∧ chk6 pages = true) :=
            fun hall => hnnil ((checkErrors_eq_nil_iff pages).mpr hall)
          have hcond : ¬((checkErrors pages).isEmpty = true) := by
            rw [hce]
            exact Bool.false_ne_true
          rw [if_neg hcond]
          simp only [ne_eq, one_ne_zero, not_false_eq_true, true_iff]
          exact Or.inr ⟨entries, rfl, Or.inr ⟨pages, hscan, hnot⟩⟩

theorem spec_C4_witness : (1, [noPagesLine]).1 ≠ 0 ↔ failCond (some []) :=
  spec_C4 (some []) (1, [noPagesLine]) rfl

/-- Claim C6.  A missing root yields exit 1 with only the missing-directory
line (nothing is enumerated: the result is fixed before any tree is
consulted), and an existing root whose scan returns no pages yields exit 1
with only the no-pages line, so no check error line is ever emitted even
though all existence checks would fail on an empty collection. -/
theorem spec_C6 :
    pyMain none = .ok (1, [missingRootLine]) ∧
    ∀ entries, scan_pages entries = .ok [] →
      pyMain (some entries) = .ok (1, [noPagesLine]) := by
  refine ⟨rfl, fun entries hs => ?_⟩
  simp only [pyMain]
  rw [hs]
  rfl

theorem spec_C6_witness : pyMain (some []) = .ok (1, [noPagesLine]) :=
  spec_C6.2 [] rfl

/-- Claim C7 counterexample.  The claim quantifies over every run, but the run
with a missing root prints exactly one line, the missing-directory error,
which is not a summary line: every summary line starts with the words
Scanned (third conjunct shows the summary head on the count 0), while the
sole line of this run does not start with them (second conjunct).  So the
output of this run contains no summary line with the page count, refuting the
claim as stated. -/
theorem spec_C7_cex :
    pyMain none = .ok (1, [missingRootLine]) ∧
    sumHead.isPrefixOf missingRootLine = false ∧
    sumHead.isPrefixOf (summaryLine 0) = true :=
  ⟨rfl, by decide, by decide⟩

/-- Claim C7 as amended: restricted to runs in which the root exists and the
scan completes with at least one page, the console output is one summary
line with the page count, then one error line per failed check, then the
success line exactly when every check passed; the exit status is 0 on
success and 1 otherwise. -/
theorem spec_C7 (entries : List FSEntry) (ps : List Page)
    (hs : scan_pages entries = .ok ps) (hne : ps ≠ []) :
    pyMain (some entries) = .ok
      ((if checkErrors ps = [] then 0 else 1),
        summaryLine ps.length ::
          ((checkErrors ps).map errLine ++
            (if checkErrors ps = [] then [successLine] else []))) := by
  simp only [pyMain]
  rw [hs]
  dsimp only
  have hemp : ¬(ps.isEmpty = true) := by
    rw [List.isEmpty_iff]
    exact hne
  rw [if_neg hemp]
  unfold report
  by_cases hce : checkErrors ps = []
  · have hisEmp : (checkErrors ps).isEmpty = true := List.isEmpty_iff.mpr hce
    rw [if_pos hisEmp, if_pos hce, if_pos hce, hce]
    rfl
  · have hisEmp : ¬((checkErrors ps).isEmpty = true) := by
      rw [List.isEmpty_iff]
      exact hce
    rw [if_neg hisEmp, if_neg hce, if_neg hce, List.append_nil]

theorem spec_C7_witness :
    pyMain (some w3root) = .ok
      ((if checkErrors w3pages = [] then 0 else 1),
        summaryLine w3pages.length ::
          ((checkErrors w3pages).map errLine ++
            (if checkErrors w3pages = [] then [successLine] else []))) :=
  spec_C7 w3root w3pages (by rfl) (by decide)

/-- Claim C8.  On the spec scenario the run fails, its output carries the check-2
error line with the count 1 of stale-title pages interpolated, and carries
no check-1 error line. -/
theorem spec_C8 :
    pyMain (some c8root) = .ok (1, c8out) ∧
    errLine (msgOld 1) ∈ c8out ∧
    errLine msgRenamed ∉ c8out :=
  ⟨by rfl, by decide, by decide⟩

/-- Claim C10.  The verification outcome is invariant under permutation of the
page list: the error list, the full report (exit status and console
lines), emptiness, and each of the six checks are unchanged. -/
theorem spec_C10 (ps qs : List Page) (h : ps.Perm qs) :
    checkErrors ps = checkErrors qs ∧
    report ps = report qs ∧
    (ps = [] ↔ qs = []) ∧
    chk1 ps = chk1 qs ∧ chk2 ps = chk2 qs ∧ chk3 ps = chk3 qs ∧
    chk4 ps = chk4 qs ∧ chk5 ps = chk5 qs ∧ chk6 ps = chk6 qs := by
  refine ⟨checkErrors_perm h, ?_, ?_, perm_any _ h,
    congrArg Bool.not (perm_any _ h), perm_any _ h, perm_any _ h,
    perm_any _ h, perm_any _ h⟩
  · unfold report
    rw [checkErrors_perm h, h.length_eq]
  · constructor
    · intro hnil
      subst hnil
      exact h.nil_eq.symm
    · intro hnil
      subst hnil
      exact h.symm.nil_eq.symm

theorem spec_C10_witness :
    checkErrors [wpgA, wpgB] = checkErrors [wpgB, wpgA] ∧
    report [wpgA, wpgB] = report [wpgB, wpgA] ∧
    ([wpgA, wpgB] = ([] : List Page) ↔ [wpgB, wpgA] = ([] : List Page)) ∧
    chk1 [wpgA, wpgB] = chk1 [wpgB, wpgA] ∧ chk2 [wpgA, wpgB] = chk2 [wpgB, wpgA] ∧
    chk3 [wpgA, wpgB] = chk3 [wpgB, wpgA] ∧ chk4 [wpgA, wpgB] = chk4 [wpgB, wpgA] ∧
    chk5 [wpgA, wpgB] = chk5 [wpgB, wpgA] ∧ chk6 [wpgA, wpgB] = chk6 [wpgB, wpgA] :=
  spec_C10 [wpgA, wpgB] [wpgB, wpgA] (List.Perm.swap wpgB wpgA [])

end MddbVerify
